import Mathlib

/-!
A shallow embedding of `mem_cache.go` (package `simplecache`)

The Go file is an in-process key/value cache with per-key expiry. The embedding
follows the source statement by statement:

* a Go `map[string]*Entry` is a finite map with distinct keys (`AList`); entries are
  never mutated after `Set` allocates them, so a pointer to an entry is modelled by the
  entry itself;
* a map field that was never `make`d is the nil map: reading it finds nothing, writing
  it is a runtime panic;
* `time.Now().UnixNano()` is an explicit argument `now`; `time.Duration` and `int64`
  are integers, and `int64` addition wraps (`wrapInt64`);
* every method takes the receiver state and returns the state it leaves, next to its
  Go results; the mutexes only serialise the methods and are not part of the state.

The source reads the variable `expiredNano` without declaring it (line 73) and the
field `entry.expired` (line 100) of a struct whose field is called `expiredNano`; both
are read as the evident `expiredNano`.
-/

namespace simplecache

/-! ## Machine integers -/

/-- The value a Go `int64` holds after an arithmetic result `x`: two's complement
wrap-around into `[-2^63, 2^63)`. -/
def wrapInt64 (x : Int) : Int := (x + 2 ^ 63) % 2 ^ 64 - 2 ^ 63

/-- The integer `x` is representable as a Go `int64`. -/
def IsInt64 (x : Int) : Prop := -(2 ^ 63) ≤ x ∧ x < 2 ^ 63

instance (x : Int) : Decidable (IsInt64 x) := by unfold IsInt64; infer_instance

/-! ## Data model -/

/-- The Go `type Entry struct { value interface{}; expiredNano int64 }`. An
`interface{}` is either nil (`none`) or a dynamic value (`some v`). -/
structure Entry (V : Type) where
  value : Option V
  expiredNano : Int
  deriving DecidableEq, Repr

/-- A non-nil Go `map[string]*Entry`. -/
abbrev Table (V : Type) := AList (fun _ : String => Entry V)

/-- Modelled from the spec: the type `Options` is declared in a file of the package that
is not part of the sources at hand; the one field `mem_cache.go` reads is the sweep
interval `IntervalOfProactivelyDeleteExpiredKey` (a `time.Duration`, in nanoseconds). -/
structure Options where
  IntervalOfProactivelyDeleteExpiredKey : Int
  deriving DecidableEq, Repr

/-- The Go `type MemCache struct` without its two mutexes. `expiredTable = none` is the
nil map (the zero value of a map field). -/
structure MemCache (V : Type) where
  options : Options
  maxMemory : Nat
  memoryUsage : Nat
  table : Table V
  expiredTable : Option (Table V)
  keyNums : Int

/-- A Go runtime panic raised inside a method: its message and the cache state at that
moment. The deferred `Unlock`s run while the panic unwinds, so a caller that recovers
goes on with this state. -/
structure Panic (V : Type) where
  msg : String
  state : MemCache V

/-- The cache state a call leaves, whether it returned or panicked. -/
def stateAfter {V : Type} : Except (Panic V) (MemCache V) → MemCache V
  | .ok mc => mc
  | .error p => p.state

/-- Whether a call returned normally. -/
def completed {V : Type} : Except (Panic V) (MemCache V) → Bool
  | .ok _ => true
  | .error _ => false

/-- Reading `m[key]` with the comma-ok form on a possibly nil map: a nil map holds no
key. -/
def lookupNilable {V : Type} (m : Option (Table V)) (key : String) : Option (Entry V) :=
  match m with
  | none => none
  | some t => t.lookup key

/-! ## Operations -/

/-- `NewMemCacheWithOptions`: `new(MemCache)` zeroes every field, then `options` and
`table` are assigned; `expiredTable` is left nil. -/
def NewMemCacheWithOptions (V : Type) (options : Options) : MemCache V :=
  { options := options
    maxMemory := 0
    memoryUsage := 0
    table := ∅
    expiredTable := none
    keyNums := 0 }

/-- One tick of the loop in `cleanupExpiredKeys`: the body of `case <-ticker.C:` holds
only a TODO comment, so the state is left as it is. -/
def cleanupTick {V : Type} (mc : MemCache V) (_now : Int) : MemCache V := mc

/-- The library call `time.NewTicker(d)`: it panics unless the period is positive. -/
def NewTicker (d : Int) : Except String Unit :=
  if d ≤ 0 then .error "non-positive interval for NewTicker" else .ok ()

/-- The first statement of `cleanupExpiredKeys`, run by the goroutine the constructor
starts: the ticker is created from the configured interval. -/
def cleanupExpiredKeysStart {V : Type} (mc : MemCache V) : Except String Unit :=
  NewTicker mc.options.IntervalOfProactivelyDeleteExpiredKey

/-- `SetMaxMemory`: returns false and changes nothing. -/
def SetMaxMemory {V : Type} (mc : MemCache V) (_size : String) : Bool × MemCache V :=
  (false, mc)

/-- `Set(key, value, expire)` executed when the clock reads `now`. The entry is stored
in `table` first; for `expire > 0` it is then stored in `expiredTable`, which panics
when that map is nil. -/
def Set {V : Type} (mc : MemCache V) (key : String) (value : Option V) (expire : Int)
    (now : Int) : Except (Panic V) (MemCache V) :=
  let expiredNano := wrapInt64 (now + expire)
  let entry : Entry V := { value := value, expiredNano := expiredNano }
  let mc1 := { mc with table := mc.table.insert key entry }
  if expire > 0 then
    match mc1.expiredTable with
    | none => .error { msg := "assignment to entry in nil map", state := mc1 }
    | some et => .ok { mc1 with expiredTable := some (et.insert key entry) }
  else
    .ok mc1

/-- `Get(key)` executed when the clock reads `now`: the Go results `(value, found)` and
the state left. -/
def Get {V : Type} (mc : MemCache V) (key : String) (now : Int) :
    (Option V × Bool) × MemCache V :=
  match mc.table.lookup key with
  | none => ((none, false), mc)
  | some entry =>
    if entry.expiredNano < now then
      ((none, false), mc)
    else
      ((entry.value, true), mc)

/-- `Del(key)`: the Go result and the state left. -/
def Del {V : Type} (mc : MemCache V) (key : String) : Bool × MemCache V :=
  match mc.table.lookup key with
  | some _ => (true, { mc with table := mc.table.erase key })
  | none => (false, mc)

/-- `Exists(key)`: the Go result and the state left. -/
def Exists {V : Type} (mc : MemCache V) (key : String) : Bool × MemCache V :=
  match mc.table.lookup key with
  | some _ => (true, mc)
  | none => (false, mc)

/-- `Flush()`: the Go result and the state left. -/
def Flush {V : Type} (mc : MemCache V) : Bool × MemCache V :=
  (true, { mc with table := ∅ })

/-- `Keys()`: the Go result and the state left. -/
def Keys {V : Type} (mc : MemCache V) : Int × MemCache V :=
  (mc.keyNums, mc)

/-- The number of distinct keys present in `table`. -/
def tableLen {V : Type} (mc : MemCache V) : Nat := mc.table.keys.length

/-- The states a program can bring a cache to through the public methods, starting from
the constructor. A `Set` that panics counts with the state it leaves, for callers that
recover. -/
inductive Reachable {V : Type} : MemCache V → Prop
  | init (options : Options) : Reachable (NewMemCacheWithOptions V options)
  | set {mc : MemCache V} (key : String) (value : Option V) (expire now : Int) :
      Reachable mc → Reachable (stateAfter (Set mc key value expire now))
  | get {mc : MemCache V} (key : String) (now : Int) :
      Reachable mc → Reachable (Get mc key now).2
  | del {mc : MemCache V} (key : String) : Reachable mc → Reachable (Del mc key).2
  | existsKey {mc : MemCache V} (key : String) : Reachable mc → Reachable (Exists mc key).2
  | flush {mc : MemCache V} : Reachable mc → Reachable (Flush mc).2
  | keys {mc : MemCache V} : Reachable mc → Reachable (Keys mc).2
  | tick {mc : MemCache V} (now : Int) : Reachable mc → Reachable (cleanupTick mc now)

/-- A fresh cache with default-like options, used by the concrete evaluations. -/
def freshCache : MemCache String := NewMemCacheWithOptions String ⟨1000000000⟩

/-- The fresh cache with an allocated (empty) expiration index: a state of the struct
type in which `Set` with a positive duration returns normally. -/
def allocatedCache : MemCache String := { freshCache with expiredTable := some ∅ }

/-- The state with one permanent key: a fresh cache after `Set("k", "v", 0)` executed
at clock reading 0. -/
def oneKeyCache : MemCache String := stateAfter (Set freshCache "k" (some "v") 0 0)

/-- The state after the sweeper ticked at the clock readings `ticks`, in order. -/
def afterTicks {V : Type} (mc : MemCache V) (ticks : List Int) : MemCache V :=
  ticks.foldl cleanupTick mc

/-! ## Lock operations -/

/-- The calls a method makes on the two mutexes `mu` (a `sync.RWMutex`) and `expiredMu`
(a `sync.Mutex`). -/
inductive LockEvent where
  | muLock
  | muUnlock
  | muRLock
  | muRUnlock
  | expiredMuLock
  | expiredMuUnlock
  deriving DecidableEq, Repr

/-- How the running method holds `mu`. -/
inductive MuMode where
  | free
  | shared
  | exclusive
  deriving DecidableEq, Repr

/-- The locks the running method holds. -/
structure Held where
  mu : MuMode
  expiredMu : Bool
  deriving DecidableEq, Repr

/-- `Set`: `mu.Lock()` and `defer mu.Unlock()` (lines 69-70); for `expire > 0` also
`expiredMu.Lock()` and `defer expiredMu.Unlock()` (lines 83-84). Deferred calls run
last-in first-out when the method returns or panics. -/
def SetLocks (expire : Int) : List LockEvent :=
  [.muLock] ++ (if expire > 0 then [.expiredMuLock, .expiredMuUnlock] else []) ++ [.muUnlock]

/-- `Get`: `mu.RLock()` and `defer mu.RUnlock()` (lines 92-93). -/
def GetLocks : List LockEvent := [.muRLock, .muRUnlock]

/-- `Del`: `mu.Lock()` and `defer mu.Unlock()` (lines 109-110). -/
def DelLocks : List LockEvent := [.muLock, .muUnlock]

/-- `Exists`: `mu.RLock()` and `defer mu.RUnlock()` (lines 121-122). -/
def ExistsLocks : List LockEvent := [.muRLock, .muRUnlock]

/-- `Flush`: `mu.Lock()` and `defer mu.Unlock()` (lines 130-131). -/
def FlushLocks : List LockEvent := [.muLock, .muUnlock]

/-- `Keys`: `mu.RLock()` and `defer mu.RUnlock()` (lines 140-141). -/
def KeysLocks : List LockEvent := [.muRLock, .muRUnlock]

/-- One lock call under the ordering discipline: `none` when the call breaks it, that
is when `mu` is acquired while `expiredMu` is held or `expiredMu` is acquired while
`mu` is not held (or a lock is released that is not held that way). -/
def lockStep (h : Held) : LockEvent → Option Held
  | .muLock =>
    if h.expiredMu = false ∧ h.mu = .free then some { h with mu := .exclusive } else none
  | .muRLock =>
    if h.expiredMu = false ∧ h.mu = .free then some { h with mu := .shared } else none
  | .muUnlock => if h.mu = .exclusive then some { h with mu := .free } else none
  | .muRUnlock => if h.mu = .shared then some { h with mu := .free } else none
  | .expiredMuLock =>
    if h.mu ≠ .free ∧ h.expiredMu = false then some { h with expiredMu := true } else none
  | .expiredMuUnlock => if h.expiredMu = true then some { h with expiredMu := false } else none

/-- The locks held after a sequence of lock calls, `none` when one of them breaks the
discipline. -/
def runLocks : Held → List LockEvent → Option Held
  | h, [] => some h
  | h, e :: es =>
    match lockStep h e with
    | none => none
    | some h1 => runLocks h1 es

/-- A method's lock calls keep the discipline and release everything they took. -/
def lockDiscipline (es : List LockEvent) : Bool :=
  decide (runLocks ⟨.free, false⟩ es = some ⟨.free, false⟩)

/-- The modes in which a sequence of lock calls acquires `mu`, in order. -/
def muModes (es : List LockEvent) : List MuMode :=
  es.filterMap fun e =>
    match e with
    | .muLock => some .exclusive
    | .muRLock => some .shared
    | _ => none

/-! ## Basic facts about the operations -/

section Basics

variable {V : Type}

theorem wrapInt64_of_isInt64 {x : Int} (h : IsInt64 x) : wrapInt64 x = x := by
  unfold IsInt64 at h
  unfold wrapInt64
  norm_num at h ⊢
  omega

theorem Get_state (mc : MemCache V) (key : String) (now : Int) : (Get mc key now).2 = mc := by
  unfold Get
  cases mc.table.lookup key with
  | none => rfl
  | some entry => by_cases h : entry.expiredNano < now <;> simp [h]

theorem Exists_state (mc : MemCache V) (key : String) : (Exists mc key).2 = mc := by
  unfold Exists
  cases mc.table.lookup key <;> rfl

theorem afterTicks_eq (mc : MemCache V) (ticks : List Int) : afterTicks mc ticks = mc := by
  induction ticks with
  | nil => rfl
  | cons t ts ih => simpa [afterTicks, cleanupTick] using ih

/-- Whatever way `Set` ends, `table` then maps the key to the entry just built. -/
theorem Set_table_lookup (mc : MemCache V) (key : String) (value : Option V)
    (expire now : Int) :
    (stateAfter (Set mc key value expire now)).table.lookup key
      = some ⟨value, wrapInt64 (now + expire)⟩ := by
  unfold Set
  by_cases h : expire > 0
  · cases he : mc.expiredTable <;> simp [h, he, stateAfter]
  · simp [h, stateAfter]

/-- The fields `Set` leaves alone, and what it does to a nil index. -/
theorem Set_frame (mc : MemCache V) (key : String) (value : Option V) (expire now : Int) :
    (stateAfter (Set mc key value expire now)).keyNums = mc.keyNums
      ∧ (stateAfter (Set mc key value expire now)).memoryUsage = mc.memoryUsage
      ∧ (mc.expiredTable = none →
          (stateAfter (Set mc key value expire now)).expiredTable = none) := by
  unfold Set
  by_cases h : expire > 0
  · cases he : mc.expiredTable <;> simp [h, he, stateAfter]
  · simp [h, stateAfter]

theorem Del_frame (mc : MemCache V) (key : String) :
    (Del mc key).2.keyNums = mc.keyNums ∧ (Del mc key).2.memoryUsage = mc.memoryUsage
      ∧ (Del mc key).2.expiredTable = mc.expiredTable := by
  unfold Del
  cases mc.table.lookup key <;> simp

/-- In every reachable state the expiration index is still the nil map and both counters
still hold their zero value: no method assigns them. -/
theorem reachable_zero {mc : MemCache V} (h : Reachable mc) :
    mc.expiredTable = none ∧ mc.keyNums = 0 ∧ mc.memoryUsage = 0 := by
  induction h with
  | init options => exact ⟨rfl, rfl, rfl⟩
  | set key value expire now _ ih =>
    obtain ⟨h1, h2, h3⟩ := Set_frame _ key value expire now
    exact ⟨h3 ih.1, h1.trans ih.2.1, h2.trans ih.2.2⟩
  | get key now _ ih => rw [Get_state]; exact ih
  | del key _ ih =>
    obtain ⟨h1, h2, h3⟩ := Del_frame _ key
    exact ⟨h3.trans ih.1, h1.trans ih.2.1, h2.trans ih.2.2⟩
  | existsKey key _ ih => rw [Exists_state]; exact ih
  | flush _ ih => exact ih
  | keys _ ih => exact ih
  | tick now _ ih => exact ih

theorem oneKeyCache_reachable : Reachable oneKeyCache :=
  Reachable.set "k" (some "v") 0 0 (Reachable.init ⟨1000000000⟩)

/-- `Set` on one key leaves the entry of every other key in `table` as it was. -/
theorem Set_table_lookup_ne (mc : MemCache V) (key other : String) (value : Option V)
    (expire now : Int) (hne : other ≠ key) :
    (stateAfter (Set mc key value expire now)).table.lookup other
      = mc.table.lookup other := by
  unfold Set
  by_cases h : expire > 0
  · cases he : mc.expiredTable <;> simp [h, he, stateAfter, AList.lookup_insert_ne hne]
  · simp [h, stateAfter, AList.lookup_insert_ne hne]

/-- `Del` on one key leaves the entry of every other key in `table` as it was. -/
theorem Del_table_lookup_ne (mc : MemCache V) (key other : String) (hne : other ≠ key) :
    (Del mc key).2.table.lookup other = mc.table.lookup other := by
  unfold Del
  cases mc.table.lookup key <;> simp [AList.lookup_erase_ne hne]

/-- The results of `Get` depend on the state only through the entry of the key. -/
theorem Get_result_congr (mc1 mc2 : MemCache V) (key : String) (now : Int)
    (h : mc1.table.lookup key = mc2.table.lookup key) :
    (Get mc1 key now).1 = (Get mc2 key now).1 := by
  unfold Get
  rw [h]
  cases mc2.table.lookup key with
  | none => rfl
  | some entry => by_cases hlt : entry.expiredNano < now <;> simp [hlt]

/-- The result of `Exists` depends on the state only through the entry of the key. -/
theorem Exists_result_congr (mc1 mc2 : MemCache V) (key : String)
    (h : mc1.table.lookup key = mc2.table.lookup key) :
    (Exists mc1 key).1 = (Exists mc2 key).1 := by
  unfold Exists
  rw [h]
  cases mc2.table.lookup key <;> rfl

/-- `Set` with a non-positive duration returns and leaves the index alone. -/
theorem Set_nonpositive (mc : MemCache V) (key : String) (value : Option V)
    (expire now : Int) (h : expire ≤ 0) :
    completed (Set mc key value expire now) = true
      ∧ (stateAfter (Set mc key value expire now)).expiredTable = mc.expiredTable := by
  have hn : ¬ expire > 0 := by omega
  unfold Set
  simp [hn, stateAfter, completed]

/-- No method assigns `maxMemory`. -/
theorem Set_maxMemory (mc : MemCache V) (key : String) (value : Option V)
    (expire now : Int) :
    (stateAfter (Set mc key value expire now)).maxMemory = mc.maxMemory := by
  unfold Set
  by_cases h : expire > 0
  · cases he : mc.expiredTable <;> simp [h, he, stateAfter]
  · simp [h, stateAfter]

theorem Del_maxMemory (mc : MemCache V) (key : String) :
    (Del mc key).2.maxMemory = mc.maxMemory := by
  unfold Del
  cases mc.table.lookup key <;> simp

/-- In every reachable state the ceiling still holds its zero value. -/
theorem reachable_maxMemory {mc : MemCache V} (h : Reachable mc) : mc.maxMemory = 0 := by
  induction h with
  | init options => rfl
  | set key value expire now _ ih => rw [Set_maxMemory]; exact ih
  | get key now _ ih => rw [Get_state]; exact ih
  | del key _ ih => rw [Del_maxMemory]; exact ih
  | existsKey key _ ih => rw [Exists_state]; exact ih
  | flush _ ih => exact ih
  | keys _ ih => exact ih
  | tick now _ ih => exact ih

theorem freshCache_reachable : Reachable freshCache := Reachable.init ⟨1000000000⟩

end Basics

/-! ## Expiry on read -/

section Claims

variable {V : Type}

/-- C1, the code at the failing input: on a fresh cache `Set("k", "v", 0)` at clock
reading 0 returns and stores the entry with expiry 0, and `Get("k")` at clock reading 1
answers `(nil, false)` although nothing touched the key: a non-positive duration does
not make the entry permanent. -/
theorem C1_zero_ttl_entry_expires :
    completed (Set freshCache "k" (some "v") 0 0) = true
      ∧ (stateAfter (Set freshCache "k" (some "v") 0 0)).table.lookup "k"
          = some ⟨some "v", 0⟩
      ∧ (Get (stateAfter (Set freshCache "k" (some "v") 0 0)) "k" 1).1 = (none, false) := by
  decide

/-- C2, the code at the failing input: on a cache just built by the constructor,
`Set("k", "v", 1)` at clock reading 0 does not return: the write to the nil
`expiredTable` panics, so no `Get` follows it. -/
theorem C2_positive_ttl_set_panics :
    completed (Set freshCache "k" (some "v") 1 0) = false
      ∧ freshCache.expiredTable = none := by
  decide

/-- C3, the claim fails at the boundary: with an allocated index `Set("x", "v1", 50)`
at clock reading 0 returns, and `Get("x")` at clock reading 50 = 0 + 50 still answers
`("v1", true)`, not `(nil, false)`; the same answer is read from the state a recovered
panicking `Set` leaves on a fresh cache. -/
theorem C3_boundary_counterexample :
    completed (Set allocatedCache "x" (some "v1") 50 0) = true
      ∧ (Get (stateAfter (Set allocatedCache "x" (some "v1") 50 0)) "x" 50).1
          = (some "v1", true)
      ∧ (Get (stateAfter (Set allocatedCache "x" (some "v1") 50 0)) "x" 50).1
          ≠ (none, false)
      ∧ (Get (stateAfter (Set freshCache "x" (some "v1") 50 0)) "x" 50).1
          = (some "v1", true) := by
  decide

/-- C3 as amended: for every state, key, value, duration `d > 0` and int64 clock
readings `t`, `now` with `t + d ≤ now`, in the state `Set(k, v, d)` executed at `t`
leaves, and after any number of sweeper ticks, `Get(k)` executed at `now` answers
`(nil, false)` when `t + d < now` and `(v, true)` at the boundary `t + d = now`. -/
theorem C3_get_after_expiry (mc : MemCache V) (key : String) (value : Option V)
    (d t now : Int) (ticks : List Int) (hd : 0 < d) (ht : IsInt64 t) (hnow : IsInt64 now)
    (h : t + d ≤ now) :
    (Get (afterTicks (stateAfter (Set mc key value d t)) ticks) key now).1
      = if t + d < now then (none, false) else (value, true) := by
  have hw : wrapInt64 (t + d) = t + d := by
    apply wrapInt64_of_isInt64
    unfold IsInt64 at *
    constructor <;> omega
  rw [afterTicks_eq]
  unfold Get
  rw [Set_table_lookup, hw]
  by_cases hlt : t + d < now <;> simp [hlt]

/-- C3 as amended, at a concrete input: `Set("x", "v1", 50)` at clock reading 0 on a
cache with an allocated index, two sweeper ticks, then `Get("x")` at clock reading 60. -/
theorem C3_get_after_expiry_witness :
    (Get (afterTicks (stateAfter (Set allocatedCache "x" (some "v1") 50 0)) [20, 40])
        "x" 60).1
      = if (0 : Int) + 50 < 60 then (none, false) else (some "v1", true) :=
  C3_get_after_expiry allocatedCache "x" (some "v1") 50 0 60 [20, 40] (by decide)
    (by decide) (by decide) (by decide)

/-- C4, the code at the failing input: in the state a fresh cache is in after
`Set("k", "v", 0)` at clock reading 0, at clock reading 1 `Get("k")` reports a miss
while `Exists("k")` reports the key present: `Exists` does not look at the expiry. -/
theorem C4_exists_ignores_expiry :
    (Get oneKeyCache "k" 1).1.2 = false ∧ (Exists oneKeyCache "k").1 = true := by
  decide

/-- C5, the code at the failing input: in the state a fresh cache is in after
`Set("k", "v", 0)` at clock reading 0, `Get("k")` at clock reading 1 answers a miss and
leaves the state as it was: the expired key is still in `table`, and `keyNums` and
`memoryUsage` hold what they held. -/
theorem C5_get_keeps_expired_entry :
    oneKeyCache.table.lookup "k" = some ⟨some "v", 0⟩
      ∧ (Get oneKeyCache "k" 1).1 = (none, false)
      ∧ (Get oneKeyCache "k" 1).2.table.lookup "k" = some ⟨some "v", 0⟩
      ∧ (Get oneKeyCache "k" 1).2.keyNums = oneKeyCache.keyNums
      ∧ (Get oneKeyCache "k" 1).2.memoryUsage = oneKeyCache.memoryUsage := by
  decide

/-! ## The key counter -/

/-- C7, the code at the failing input: after `Set("k", "v", 0)` on a cache just built
by the constructor `table` holds one key and `Keys()` answers 0: no method updates the
counter `keyNums` that `Keys` returns. -/
theorem C7_keys_stays_zero :
    tableLen oneKeyCache = 1 ∧ (Keys oneKeyCache).1 = 0
      ∧ (Keys oneKeyCache).1 ≠ (tableLen oneKeyCache : Int) := by
  decide

/-! ## Flush and Del -/

/-- C8: for every reachable state, key and clock reading, after `Flush()` the call
`Keys()` answers 0, `Get(k)` answers `(nil, false)` and `Exists(k)` answers false. -/
theorem C8_after_flush_all_miss (mc : MemCache V) (h : Reachable mc) (key : String)
    (now : Int) :
    (Keys (Flush mc).2).1 = 0
      ∧ (Get (Flush mc).2 key now).1 = (none, false)
      ∧ (Exists (Flush mc).2 key).1 = false := by
  refine ⟨(reachable_zero h).2.1, ?_, ?_⟩
  · simp [Get, Flush]
  · simp [Exists, Flush]

/-- C8 at a concrete reachable state: a fresh cache after `Set("k", "v", 0)`, flushed,
then asked for `"k"` at clock reading 0. -/
theorem C8_after_flush_all_miss_witness :
    (Keys (Flush oneKeyCache).2).1 = 0
      ∧ (Get (Flush oneKeyCache).2 "k" 0).1 = (none, false)
      ∧ (Exists (Flush oneKeyCache).2 "k").1 = false :=
  C8_after_flush_all_miss oneKeyCache oneKeyCache_reachable "k" 0

/-- C9: for every cache state reachable from the constructor, `Flush()` returns true
and leaves a state in which `table` is empty, `expiredTable` holds no key, and
`memoryUsage` and `keyNums` are 0. -/
theorem C9_flush_leaves_empty_cache (mc : MemCache V) (h : Reachable mc) :
    (Flush mc).1 = true
      ∧ (Flush mc).2.table = ∅
      ∧ (∀ key : String, lookupNilable (Flush mc).2.expiredTable key = none)
      ∧ (Flush mc).2.memoryUsage = 0
      ∧ (Flush mc).2.keyNums = 0 := by
  obtain ⟨h1, h2, h3⟩ := reachable_zero h
  refine ⟨rfl, rfl, ?_, h3, h2⟩
  intro key
  show lookupNilable mc.expiredTable key = none
  rw [h1]
  rfl

/-- C9 at a concrete reachable state: the cache holding the one key `"k"` is flushed. -/
theorem C9_flush_leaves_empty_cache_witness :
    tableLen oneKeyCache = 1
      ∧ (Flush oneKeyCache).1 = true
      ∧ (Flush oneKeyCache).2.table = ∅
      ∧ (∀ key : String, lookupNilable (Flush oneKeyCache).2.expiredTable key = none)
      ∧ (Flush oneKeyCache).2.memoryUsage = 0
      ∧ (Flush oneKeyCache).2.keyNums = 0 :=
  ⟨by decide, C9_flush_leaves_empty_cache oneKeyCache oneKeyCache_reachable⟩

/-- For every cache state and key, `Del(k)` returns true exactly when `k` was in `table`,
and afterwards `Exists(k)` is false. -/
theorem Del_reports_presence (mc : MemCache V) (key : String) :
    ((Del mc key).1 = true ↔ key ∈ mc.table) ∧ (Exists (Del mc key).2 key).1 = false := by
  unfold Del Exists
  cases hl : mc.table.lookup key with
  | none =>
    have hn : key ∉ mc.table := AList.lookup_eq_none.mp hl
    simp [hl, hn]
  | some e =>
    have hm : key ∈ mc.table := by
      rw [← AList.lookup_isSome, hl]; rfl
    simp [hm]

/-- C10, the code at the failing input: on a cache just built by the constructor,
`Set("k", "v", 1)` at clock reading 0 panics on the nil index instead of returning, so
no `Del("k")` follows it; with duration 0 the same `Set` returns, `Del("k")` then
returns true and `Exists("k")` is false. -/
theorem C10_set_then_del_positive_ttl :
    completed (Set freshCache "k" (some "v") 1 0) = false
      ∧ completed (Set freshCache "k" (some "v") 0 0) = true
      ∧ (Del (stateAfter (Set freshCache "k" (some "v") 0 0)) "k").1 = true
      ∧ (Exists (Del (stateAfter (Set freshCache "k" (some "v") 0 0)) "k").2 "k").1
          = false := by
  decide

/-! ## Overwriting, the index on a permanent Set, and misses -/

/-- C11, the code at the failing input: on a cache just built by the constructor,
`Set("k", "v1", 0)` at clock reading 3 returns, and the overwriting
`Set("k", "v2", 5)` at clock reading 7 panics on the nil index instead of returning
(as does a first `Set` with duration 5); with duration 0 the second `Set` returns and
`table` maps `"k"` to the entry with value `"v2"` and expiry 7. -/
theorem C11_overwrite_positive_ttl_panics :
    completed (Set freshCache "k" (some "v1") 0 3) = true
      ∧ completed (Set (stateAfter (Set freshCache "k" (some "v1") 0 3)) "k" (some "v2") 5 7)
          = false
      ∧ completed (Set freshCache "k" (some "v1") 5 3) = false
      ∧ completed (Set (stateAfter (Set freshCache "k" (some "v1") 0 3)) "k" (some "v2") 0 7)
          = true
      ∧ (stateAfter (Set (stateAfter (Set freshCache "k" (some "v1") 0 3)) "k" (some "v2") 0
          7)).table.lookup "k" = some ⟨some "v2", 7⟩ := by
  decide

/-- C12: for every cache state reachable from the constructor, key and value,
`Set(k, v, ttl)` with `ttl ≤ 0` returns and afterwards `k` is absent from
`expiredTable`; this also holds when `k` was set just before with a positive duration
(a `Set` that panicked on the nil index, the caller having recovered). -/
theorem C12_permanent_key_not_in_index (mc : MemCache V) (h : Reachable mc) (key : String)
    (value : Option V) (ttl now : Int) (httl : ttl ≤ 0) :
    (completed (Set mc key value ttl now) = true
        ∧ lookupNilable (stateAfter (Set mc key value ttl now)).expiredTable key = none)
      ∧ ∀ (v0 : Option V) (d t0 : Int), 0 < d →
          completed (Set (stateAfter (Set mc key v0 d t0)) key value ttl now) = true
            ∧ lookupNilable
                (stateAfter (Set (stateAfter (Set mc key v0 d t0)) key value ttl
                  now)).expiredTable key = none := by
  have hgen : ∀ m : MemCache V, Reachable m →
      completed (Set m key value ttl now) = true
        ∧ lookupNilable (stateAfter (Set m key value ttl now)).expiredTable key = none := by
    intro m hm
    obtain ⟨hc, he⟩ := Set_nonpositive m key value ttl now httl
    refine ⟨hc, ?_⟩
    rw [he, (reachable_zero hm).1]
    rfl
  refine ⟨hgen mc h, ?_⟩
  intro v0 d t0 _
  exact hgen _ (Reachable.set key v0 d t0 h)

/-- C12 at a concrete input: on a cache just built by the constructor `"k"` is set with
duration 5 at clock reading 0 (the panic recovered), then `Set("k", "w", 0)` at clock
reading 10 returns, `table` holds the permanent entry and `"k"` is not in the index. -/
theorem C12_permanent_key_not_in_index_witness :
    (stateAfter (Set (stateAfter (Set freshCache "k" (some "v") 5 0)) "k" (some "w") 0
        10)).table.lookup "k" = some ⟨some "w", 10⟩
      ∧ completed (Set (stateAfter (Set freshCache "k" (some "v") 5 0)) "k" (some "w") 0 10)
          = true
      ∧ lookupNilable
          (stateAfter (Set (stateAfter (Set freshCache "k" (some "v") 5 0)) "k" (some "w") 0
            10)).expiredTable "k" = none :=
  ⟨by decide,
    (C12_permanent_key_not_in_index freshCache freshCache_reachable "k" (some "w") 0 10
      (by decide)).2 (some "v") 5 0 (by decide)⟩

/-- C13: for every cache state, clock reading and key absent from `table`, `Get(k)`
returns `(nil, false)`, `Exists(k)` returns false and `Del(k)` returns false; each is a
total function returning a result, and each leaves the state as it was. -/
theorem C13_miss_is_not_an_error (mc : MemCache V) (key : String) (now : Int)
    (habs : key ∉ mc.table) :
    Get mc key now = ((none, false), mc)
      ∧ Exists mc key = (false, mc)
      ∧ Del mc key = (false, mc) := by
  have hl : mc.table.lookup key = none := AList.lookup_eq_none.mpr habs
  unfold Get Exists Del
  simp [hl]

/-- C13 at a concrete input: the key `"z"` on the state holding only `"k"`, at clock
reading 5. -/
theorem C13_miss_is_not_an_error_witness :
    Get oneKeyCache "z" 5 = ((none, false), oneKeyCache)
      ∧ Exists oneKeyCache "z" = (false, oneKeyCache)
      ∧ Del oneKeyCache "z" = (false, oneKeyCache) :=
  C13_miss_is_not_an_error oneKeyCache "z" 5 (by decide)

/-! ## The constructor and its sweeper -/

/-- C16, the code at the failing input: for the options with sweep interval 0, the
goroutine the constructor starts panics when it creates its ticker. -/
theorem C16_nonpositive_interval_panics :
    cleanupExpiredKeysStart (NewMemCacheWithOptions String ⟨0⟩)
      = .error "non-positive interval for NewTicker" := by
  rfl

/-! ## Lock ordering, totality of Set, the expiry sum, and other keys -/

/-- C17: the lock calls of every public method keep the ordering discipline
(`expiredMu` is taken only while `mu` is held, `mu` is never taken while `expiredMu` is
held, and everything taken is released); `Set`, `Del` and `Flush` take `mu` once, in
exclusive mode, and `Get`, `Exists` and `Keys` take it once, in shared mode. -/
theorem C17_lock_ordering (expire : Int) :
    (lockDiscipline (SetLocks expire) = true ∧ muModes (SetLocks expire) = [.exclusive])
      ∧ (lockDiscipline GetLocks = true ∧ muModes GetLocks = [.shared])
      ∧ (lockDiscipline DelLocks = true ∧ muModes DelLocks = [.exclusive])
      ∧ (lockDiscipline ExistsLocks = true ∧ muModes ExistsLocks = [.shared])
      ∧ (lockDiscipline FlushLocks = true ∧ muModes FlushLocks = [.exclusive])
      ∧ (lockDiscipline KeysLocks = true ∧ muModes KeysLocks = [.shared]) := by
  refine ⟨?_, by decide, by decide, by decide, by decide, by decide⟩
  unfold SetLocks
  by_cases h : expire > 0
  · rw [if_pos h]
    decide
  · rw [if_neg h]
    decide

/-- C18, the code on the failing inputs: in every state reachable from the constructor
the index is the nil map, so `Set` with any positive duration panics instead of
returning. -/
theorem C18_set_positive_ttl_not_total (mc : MemCache V) (h : Reachable mc) (key : String)
    (value : Option V) (expire now : Int) (hpos : 0 < expire) :
    mc.expiredTable = none ∧ completed (Set mc key value expire now) = false := by
  have h0 := (reachable_zero h).1
  refine ⟨h0, ?_⟩
  have hp : expire > 0 := hpos
  unfold Set
  simp [hp, h0, completed]

/-- C18 at a concrete input: `Set("k", "v", 50)` at clock reading 0 on a cache just
built by the constructor. -/
theorem C18_set_positive_ttl_not_total_witness :
    freshCache.expiredTable = none
      ∧ completed (Set freshCache "k" (some "v") 50 0) = false :=
  C18_set_positive_ttl_not_total freshCache freshCache_reachable "k" (some "v") 50 0
    (by decide)

/-- C19, the claim fails: at clock reading 1 with duration `2^63 - 1` (both int64) the
64-bit sum wraps to `-2^63`; `Set` stores that expiry and `Get` at the same clock
reading already reports the key expired. -/
theorem C19_expiry_wraps_counterexample :
    IsInt64 1 ∧ IsInt64 9223372036854775807
      ∧ wrapInt64 (1 + 9223372036854775807) = -9223372036854775808
      ∧ wrapInt64 (1 + 9223372036854775807) < 1
      ∧ (stateAfter (Set allocatedCache "k" (some "v") 9223372036854775807 1)).table.lookup
          "k" = some ⟨some "v", -9223372036854775808⟩
      ∧ (Get (stateAfter (Set allocatedCache "k" (some "v") 9223372036854775807 1)) "k" 1).1
          = (none, false) := by
  decide

/-- C19 as amended: for int64 `now ≥ 0` and `ttl > 0`, the expiry `Set` computes equals
the exact sum `now + ttl` exactly when that sum is below `2^63`; in that case `Set`
stores the exact sum, it is strictly greater than `now`, and `Get` at the instant of the
`Set` returns the value. -/
theorem C19_expiry_exact_without_overflow (mc : MemCache V) (key : String)
    (value : Option V) (now ttl : Int) (hnow : IsInt64 now) (httl : IsInt64 ttl)
    (hnow0 : 0 ≤ now) (hpos : 0 < ttl) :
    (wrapInt64 (now + ttl) = now + ttl ↔ now + ttl < 2 ^ 63)
      ∧ (now + ttl < 2 ^ 63 →
          (stateAfter (Set mc key value ttl now)).table.lookup key = some ⟨value, now + ttl⟩
            ∧ now < wrapInt64 (now + ttl)
            ∧ (Get (stateAfter (Set mc key value ttl now)) key now).1 = (value, true)) := by
  have hexact : now + ttl < 2 ^ 63 → wrapInt64 (now + ttl) = now + ttl := by
    intro hlt
    apply wrapInt64_of_isInt64
    unfold IsInt64 at *
    constructor <;> omega
  constructor
  · constructor
    · intro hw
      unfold IsInt64 at hnow httl
      unfold wrapInt64 at hw
      norm_num at hnow httl hw ⊢
      omega
    · exact hexact
  · intro hlt
    have hw := hexact hlt
    have hl := Set_table_lookup mc key value ttl now
    rw [hw] at hl
    refine ⟨hl, by omega, ?_⟩
    unfold Get
    rw [hl]
    have hnot : ¬ (now + ttl < now) := by omega
    simp [hnot]

/-- C19 as amended, at a concrete input: `Set("k", "v", 50)` at clock reading 1000 on
the cache with an allocated index. -/
theorem C19_expiry_exact_without_overflow_witness :
    (stateAfter (Set allocatedCache "k" (some "v") 50 1000)).table.lookup "k"
        = some ⟨some "v", 1000 + 50⟩
      ∧ (1000 : Int) < wrapInt64 (1000 + 50)
      ∧ (Get (stateAfter (Set allocatedCache "k" (some "v") 50 1000)) "k" 1000).1
          = (some "v", true) :=
  (C19_expiry_exact_without_overflow allocatedCache "k" (some "v") 1000 50 (by decide)
    (by decide) (by decide) (by decide)).2 (by decide)

/-- C20: for every cache state, clock reading and distinct keys `k`, `k2`, the results
of `Get(k2)` and `Exists(k2)` are the same in the state `Set(k, v, ttl)` leaves as
before it, and the same after `Del(k)` as before it. -/
theorem C20_other_keys_undisturbed (mc : MemCache V) (key other : String)
    (value : Option V) (ttl t now : Int) (hne : key ≠ other) :
    (Get (stateAfter (Set mc key value ttl t)) other now).1 = (Get mc other now).1
      ∧ (Exists (stateAfter (Set mc key value ttl t)) other).1 = (Exists mc other).1
      ∧ (Get (Del mc key).2 other now).1 = (Get mc other now).1
      ∧ (Exists (Del mc key).2 other).1 = (Exists mc other).1 := by
  have hne2 : other ≠ key := fun h => hne h.symm
  have hs := Set_table_lookup_ne mc key other value ttl t hne2
  have hd := Del_table_lookup_ne mc key other hne2
  exact ⟨Get_result_congr _ _ other now hs, Exists_result_congr _ _ other hs,
    Get_result_congr _ _ other now hd, Exists_result_congr _ _ other hd⟩

/-- C20 at a concrete input: `Set("b", "y", 0)` and `Del("b")` on the state holding
`"k"`, observed through `"k"` at clock reading 0. -/
theorem C20_other_keys_undisturbed_witness :
    (Get (stateAfter (Set oneKeyCache "b" (some "y") 0 0)) "k" 0).1 = (Get oneKeyCache "k" 0).1
      ∧ (Exists (stateAfter (Set oneKeyCache "b" (some "y") 0 0)) "k").1
          = (Exists oneKeyCache "k").1
      ∧ (Get (Del oneKeyCache "b").2 "k" 0).1 = (Get oneKeyCache "k" 0).1
      ∧ (Exists (Del oneKeyCache "b").2 "k").1 = (Exists oneKeyCache "k").1 :=
  C20_other_keys_undisturbed oneKeyCache "b" "k" (some "y") 0 0 0 (by decide)

end Claims

end simplecache
